import Mathlib

/-!
# Interview_prep: browser-side glue scripts

A shallow embedding of the four client scripts of the repository

* `interview_ai/backend/static/js/main.js` (`showNotification`, `validateForm`,
  `handleFileUpload`),
* `frontend/src/App.js` (`initSession`),
* `frontend/src/components/ResumeUpload.js` (`handleUpload`),
* `interview_ai/frontend/app.js` (`uploadResume`),

together with the properties the specification states about them.

Conventions of the embedding:

* a JavaScript value that may be `undefined` is an `Option`, `none` being `undefined`;
* an `async` function is a computation in the monad `JS`: it threads the
  persisted storage and the trace of observable effects, and ends either
  fulfilled or rejected with an error;
* whatever the browser supplies (number formatting, the text of a `TypeError`,
  the outcome of a network call) is a parameter.
-/

namespace InterviewPrep

/-! ## Values -/

/-- An error object: `name` is the constructor (`Error`, `TypeError`, ...), `message` its text. -/
structure JSError where
  name : String
  message : String
deriving DecidableEq, Repr

/-- A `File` as far as the scripts look at it: its name and its size in bytes. -/
structure File where
  name : String
  size : Nat
deriving DecidableEq, Repr

/-- The value of a `FormData` entry: a string or a file. -/
inductive FormValue where
  | text (s : String)
  | file (f : File)
deriving DecidableEq, Repr

/-- A `FormData` object: its entries in insertion order, which is the order `entries()` iterates. -/
abbrev FormData := List (String × FormValue)

/-- A parsed JSON value, the result of `response.json()`. A number is the value it parsed to. -/
inductive Json where
  | null
  | bool (b : Bool)
  | num (x : ℚ)
  | str (s : String)
  | arr (items : List Json)
  | obj (fields : List (String × Json))

/-- What the browser supplies and the scripts rely on without fixing it. -/
structure Host where
  /-- Number to string, as a template literal does it. -/
  numberToString : ℚ → String
  /-- The conversion `String(v)` of a JSON value that is not a string. -/
  valueToString : Json → String
  /-- The function `JSON.stringify` on a JSON value. -/
  stringify : Json → String
  /-- The message of the `TypeError` raised by the expression given as text. -/
  typeErrorMessage : String → String

/-- The `TypeError` the host raises for the expression `expr`. -/
def Host.typeError (h : Host) (expr : String) : JSError :=
  ⟨"TypeError", h.typeErrorMessage expr⟩

/-! ## `String.prototype.trim` -/

/-- The code points `trim` strips: ECMAScript `WhiteSpace` and `LineTerminator`. -/
def isWhiteSpace (c : Char) : Bool :=
  let n := c.toNat
  n = 0x09 || n = 0x0A || n = 0x0B || n = 0x0C || n = 0x0D || n = 0x20 || n = 0xA0 ||
  n = 0x1680 || (0x2000 ≤ n && n ≤ 0x200A) || n = 0x2028 || n = 0x2029 || n = 0x202F ||
  n = 0x205F || n = 0x3000 || n = 0xFEFF

/-- The characters of a string with leading and trailing white space removed. -/
def trimChars (cs : List Char) : List Char :=
  ((cs.dropWhile isWhiteSpace).reverse.dropWhile isWhiteSpace).reverse

/-- The method `String.prototype.trim`. -/
def trim (s : String) : String :=
  ⟨trimChars s.data⟩

/-! ## `validateForm` (main.js) -/

/-- The test `!value.trim()` of the loop body: a file has no method `trim`, so the call throws. -/
def trimmedIsEmpty (h : Host) : FormValue → Except JSError Bool
  | .text s => .ok (trim s = "")
  | .file _ => .error (h.typeError "value.trim is not a function")

/-- One iteration of the `for...of` loop of `validateForm`. -/
def validateStep (h : Host) (errors : List String) (entry : String × FormValue) :
    Except JSError (List String) :=
  match trimmedIsEmpty h entry.2 with
  | .error e => .error e
  | .ok true => .ok (errors ++ [entry.1 ++ " is required"])
  | .ok false => .ok errors

/-- The loop of `validateForm`, from the errors collected so far. -/
def validateLoop (h : Host) : List String → FormData → Except JSError (List String)
  | errors, [] => .ok errors
  | errors, entry :: rest =>
    match validateStep h errors entry with
    | .error e => .error e
    | .ok errors' => validateLoop h errors' rest

/-- The function `validateForm(formData)`: the loop started with `errors = []`. -/
def validateForm (h : Host) (formData : FormData) : Except JSError (List String) :=
  validateLoop h [] formData

/-- A `FormData` whose values are all strings, from its (name, value) pairs. -/
def textEntries (fields : List (String × String)) : FormData :=
  fields.map (fun e => (e.1, FormValue.text e.2))

/-! ## The document and its timers (main.js) -/

/-- A DOM element: `id` stands for the identity of the object `createElement` returned. -/
structure Element where
  id : Nat
  tag : String
  className : String
  innerHTML : String
  style : List (String × String)
  children : List Element

/-- A pending `setTimeout` whose callback is `() => container.remove()`: `due` is the time in
milliseconds at which it fires, `target` the identity of `container`. -/
structure Timer where
  due : Nat
  target : Nat
deriving DecidableEq, Repr

/-- The page: the clock in milliseconds, the identity of the next element created, the children
of `document.body`, the timer queue, and the log of the elements detached by `remove()`. -/
structure Page where
  now : Nat
  nextId : Nat
  body : List Element
  timers : List Timer
  removed : List Nat

/-- The function `showNotification(message, type = 'info')`. -/
def showNotification (message : String) (type : Option String) (p : Page) : Page :=
  let type := type.getD "info"
  let notification : Element :=
    { id := p.nextId, tag := "div",
      className := "alert alert-" ++ type ++ " alert-dismissible fade show",
      innerHTML := "\n        " ++ message ++ "\n        <button type=\"button\" " ++
        "class=\"btn-close\" data-bs-dismiss=\"alert\" aria-label=\"Close\"></button>\n    ",
      style := [], children := [] }
  let container : Element :=
    { id := p.nextId + 1, tag := "div", className := "", innerHTML := "",
      style := [("position", "fixed"), ("top", "20px"), ("right", "20px"), ("zIndex", "1000")],
      children := [notification] }
  { p with
    nextId := p.nextId + 2
    body := p.body ++ [container]
    timers := p.timers ++ [{ due := p.now + 5000, target := container.id }] }

/-- Whether the element with identity `c` is a child of `document.body`. -/
def attached (p : Page) (c : Nat) : Bool :=
  p.body.any (fun e => e.id == c)

/-- The callback of a timer, `container.remove()`: detaches the element from its parent when it
has one, and does nothing otherwise. -/
def fire (p : Page) (t : Timer) : Page :=
  if attached p t.target then
    { p with
      body := p.body.filter (fun e => e.id != t.target)
      removed := p.removed ++ [t.target] }
  else p

/-- One millisecond passes: the timers that are due fire, in the order they were scheduled, and
leave the queue. -/
def tick (p : Page) : Page :=
  let now := p.now + 1
  (p.timers.filter (fun t => decide (t.due ≤ now))).foldl fire
    { p with now := now, timers := p.timers.filter (fun t => !decide (t.due ≤ now)) }

/-- The page after `ms` milliseconds pass. -/
def advance : Nat → Page → Page
  | 0, p => p
  | ms + 1, p => advance ms (tick p)

/-- What happens on the page: a call of `showNotification`, or time passing. -/
inductive Action where
  | notify (message : String) (type : Option String)
  | wait (ms : Nat)

/-- The page after one action. -/
def step (p : Page) : Action → Page
  | .notify message type => showNotification message type p
  | .wait ms => advance ms p

/-- The page after a sequence of actions. -/
def run (p : Page) (actions : List Action) : Page :=
  actions.foldl step p

/-- The time a sequence of actions takes, in milliseconds. -/
def elapsed : List Action → Nat
  | [] => 0
  | .notify _ _ :: rest => elapsed rest
  | .wait ms :: rest => ms + elapsed rest

/-- How many times the element with identity `c` was detached from the document. -/
def removals (p : Page) (c : Nat) : Nat :=
  p.removed.count c

/-- Identities are fresh: those in use on the page lie below `nextId`. -/
def Page.WellFormed (p : Page) : Prop :=
  (∀ e ∈ p.body, e.id < p.nextId) ∧ (∀ t ∈ p.timers, t.target < p.nextId) ∧
    (∀ c ∈ p.removed, c < p.nextId)

/-- The page of a document just loaded, with an empty body. -/
def Page.empty : Page :=
  { now := 0, nextId := 0, body := [], timers := [], removed := [] }

/-! ## `handleFileUpload` (main.js) -/

/-- An `<input type="file">`: the selected files and the `value` attribute. -/
structure FileInput where
  files : List File
  value : String
deriving DecidableEq, Repr

/-- The function `handleFileUpload(input, maxSize = 5)`: the returned boolean, the input and the
page afterwards. The size of a file is an integer below `2 ^ 53` and the division by `2 ^ 20` is
exact, so `sizeInMB` is that quotient as a rational. The assignment `input.value = ''` is the
write of that property; what the browser does to the selection in reaction is not modelled. -/
def handleFileUpload (h : Host) (input : FileInput) (maxSize : Option ℚ) (p : Page) :
    Bool × FileInput × Page :=
  let maxSize := maxSize.getD 5
  match input.files.head? with
  | none => (true, input, p)
  | some file =>
    let sizeInMB : ℚ := (file.size : ℚ) / (1024 * 1024)
    if sizeInMB > maxSize then
      (false, { input with value := "" },
        showNotification ("File size must be less than " ++ h.numberToString maxSize ++ "MB")
          (some "warning") p)
    else (true, input, p)

/-- The class names of the alerts shown on the page: for each child of the body, those of its
children. -/
def alertClasses (p : Page) : List String :=
  p.body.flatMap (fun e => e.children.map (fun n => n.className))

/-! ## Asynchronous operations -/

/-- The persisted key-value store `localStorage`: its entries, the first entry of a key being
the one that counts. -/
abbrev Storage := List (String × String)

/-- The method `localStorage.getItem(key)`; `none` is `null`. -/
def getItem (st : Storage) (key : String) : Option String :=
  match st with
  | [] => none
  | (k, v) :: rest => if k = key then some v else getItem rest key

/-- The method `localStorage.setItem(key, value)`: replaces the value of `key`, or adds the
entry. -/
def setItem (st : Storage) (key value : String) : Storage :=
  match st with
  | [] => [(key, value)]
  | (k, v) :: rest => if k = key then (key, value) :: rest else (k, v) :: setItem rest key value

/-- A call of `fetch(url, init)`. -/
structure Request where
  url : String
  method : String
  headers : List (String × String)
  body : Option FormData
deriving DecidableEq, Repr

/-- The body of a response as `response.json()` finds it: it parses to a JSON value, or the
parse fails with an error. -/
inductive Body where
  | json (data : Json)
  | malformed (error : JSError)

/-- A response: the flag `ok` (status in the range 200 to 299) and the body. -/
structure Response where
  ok : Bool
  body : Body

/-- The outcome of a network call: `fetch` rejects, or resolves to a response. -/
inductive FetchOutcome where
  | rejected (error : JSError)
  | resolved (response : Response)

/-- The network: the outcome of each call. -/
abbrev Net := Request → FetchOutcome

/-- An observable effect of an operation. -/
inductive Event where
  | fetch (request : Request)
  | readBody
  | alert (message : String)
  | consoleLog (label : String) (value : Json)
  | consoleError (label : String) (error : JSError)

/-- The state an operation runs in: the persisted storage and the effects so far. -/
structure World where
  storage : Storage
  trace : List Event

/-- An operation returning an `α`: from a state, it ends fulfilled with a value or rejected with
an error, in a new state. -/
def JS (α : Type) : Type :=
  World → Except JSError α × World

/-- Return a value. -/
def JS.pure {α : Type} (a : α) : JS α :=
  fun w => (.ok a, w)

/-- Sequencing: an error in the first part skips the second. -/
def JS.bind {α β : Type} (m : JS α) (f : α → JS β) : JS β :=
  fun w =>
    match m w with
    | (.ok a, w') => f a w'
    | (.error e, w') => (.error e, w')

instance : Monad JS where
  pure := JS.pure
  bind := JS.bind

/-- The statement `throw e`, and a rejected `await`. -/
def raise {α : Type} (e : JSError) : JS α :=
  fun w => (.error e, w)

/-- The statement `try { body } catch (error) { handler }`. -/
def tryCatch {α : Type} (body : JS α) (handler : JSError → JS α) : JS α :=
  fun w =>
    match body w with
    | (.ok a, w') => (.ok a, w')
    | (.error e, w') => handler e w'

/-- Record an effect. -/
def emit (ev : Event) : JS Unit :=
  fun w => (.ok (), { w with trace := w.trace ++ [ev] })

/-- The call `alert(message)`. -/
def alert (message : String) : JS Unit :=
  emit (.alert message)

/-- The call `await fetch(...)`: the call is made, then its outcome decides. -/
def fetch (net : Net) (req : Request) : JS Response := do
  emit (.fetch req)
  match net req with
  | .rejected e => raise e
  | .resolved r => pure r

/-- The call `await response.json()`. -/
def Response.json (r : Response) : JS Json := do
  emit .readBody
  match r.body with
  | .malformed e => raise e
  | .json data => pure data

/-- The call `localStorage.getItem(key)`. -/
def localStorageGetItem (key : String) : JS (Option String) :=
  fun w => (.ok (getItem w.storage key), w)

/-- The call `localStorage.setItem(key, value)`. -/
def localStorageSetItem (key value : String) : JS Unit :=
  fun w => (.ok (), { w with storage := setItem w.storage key value })

/-- The property of an object among its own properties. -/
def lookupField (fields : List (String × Json)) (key : String) : Option Json :=
  match fields with
  | [] => none
  | (k, v) :: rest => if k = key then some v else lookupField rest key

/-- The property `key` of a JSON value, `none` when it has none. -/
def Json.field (data : Json) (key : String) : Option Json :=
  match data with
  | .obj fields => lookupField fields key
  | _ => none

/-- The expression `data.key`: reading a property of `null` throws a `TypeError`, a value of
another kind without the property gives `undefined`. -/
def getProp (h : Host) (data : Json) (key : String) : JS (Option Json) :=
  match data with
  | .null => raise (h.typeError key)
  | _ => pure (data.field key)

/-- Whether a value is truthy. -/
def truthy : Option Json → Bool
  | none => false
  | some .null => false
  | some (.bool b) => b
  | some (.num x) => decide (x ≠ 0)
  | some (.str s) => decide (s ≠ "")
  | some (.arr _) => true
  | some (.obj _) => true

/-- The conversion `String(v)`: a string is itself. -/
def toStr (h : Host) : Json → String
  | .str s => s
  | v => h.valueToString v

/-- The expression `v || d`. -/
def orElse (v : Option Json) (d : Json) : Json :=
  match v with
  | some j => if truthy (some j) then j else d
  | none => d

/-- The expression `new Error(message)`. -/
def newError (message : String) : JSError :=
  ⟨"Error", message⟩

/-! ### `initSession` (App.js) -/

/-- The request of `initSession`. -/
def startSessionRequest : Request :=
  { url := "http://localhost:8000/api/start-session", method := "GET", headers := [],
    body := none }

/-- The function `initSession`. -/
def initSession (h : Host) (net : Net) : JS Unit :=
  tryCatch
    (do
      let response ← fetch net startSessionRequest
      let data ← response.json
      let sessionId ← getProp h data "session_id"
      match sessionId with
      | some v =>
        if truthy (some v) then do
          localStorageSetItem "sessionId" (toStr h v)
          emit (.consoleLog "Session initialized:" v)
        else pure ()
      | none => pure ())
    (fun error => emit (.consoleError "Failed to initialize session:" error))

/-! ### `handleUpload` (ResumeUpload.js) -/

/-- The request of `handleUpload` for a file and a session identifier. -/
def uploadRequest (file : File) (sessionId : String) : Request :=
  { url := "http://localhost:8000/api/upload-resume", method := "POST",
    headers := [("X-Session-ID", sessionId)], body := some [("file", .file file)] }

/-- The `try` block of `handleUpload`. -/
def handleUploadBody (h : Host) (net : Net) (file : File) (sessionId : String) : JS Unit := do
  let response ← fetch net (uploadRequest file sessionId)
  if !response.ok then
    let error ← response.json
    let detail ← getProp h error "detail"
    raise (newError (toStr h (orElse detail (.str "Upload failed"))))
  else
    let _data ← response.json
    pure ()

/-- The function `handleUpload(file)`. The test `!sessionId` holds of `null` and of the empty
string. -/
def handleUpload (h : Host) (net : Net) (file : File) : JS Unit := do
  let sessionId ← localStorageGetItem "sessionId"
  match sessionId with
  | none => alert "No session found. Please refresh the page."
  | some s =>
    if s = "" then alert "No session found. Please refresh the page."
    else
      tryCatch (handleUploadBody h net file s)
        (fun error => do
          emit (.consoleError "Upload failed:" error)
          alert error.message)

/-! ### `uploadResume` (app.js) -/

/-- The request of `uploadResume`: appending `undefined` to a `FormData` appends its string. -/
def legacyUploadRequest (file : Option File) : Request :=
  { url := "/upload_resume/", method := "POST", headers := [],
    body := some [("file", match file with
      | some f => .file f
      | none => .text "undefined")] }

/-- The function `uploadResume()`; `input` is what `document.getElementById("resumeUpload")`
returns. It has no `try`. -/
def uploadResume (h : Host) (net : Net) (input : Option FileInput) : JS Unit := do
  let file ← (match input with
    | none => raise (h.typeError "files")
    | some el => pure el.files.head?)
  let response ← fetch net (legacyUploadRequest file)
  let data ← response.json
  let questions ← getProp h data "questions"
  alert ("Interview Questions: " ++ (match questions with
    | some q => h.stringify q
    | none => "undefined"))

/-! ### Running an operation -/

/-- How an operation ended, its value left out: `none` when it fulfilled, the error when it
rejected. -/
def rejection {α : Type} (r : Except JSError α × World) : Option JSError :=
  match r.1 with
  | .ok _ => none
  | .error e => some e

/-- The network calls in a trace. -/
def fetches : List Event → List Request
  | [] => []
  | .fetch req :: rest => req :: fetches rest
  | _ :: rest => fetches rest

/-- The texts of the alerts in a trace. -/
def alerts : List Event → List String
  | [] => []
  | .alert m :: rest => m :: alerts rest
  | _ :: rest => alerts rest

/-- How many times a response body was read in a trace. -/
def bodyReads : List Event → Nat
  | [] => 0
  | .readBody :: rest => bodyReads rest + 1
  | _ :: rest => bodyReads rest

/-- A host for examples: numbers print as their numerator, other values as a fixed text. -/
def Host.sample : Host :=
  { numberToString := fun x => toString x.num
    valueToString := fun _ => "[object Object]"
    stringify := fun _ => "null"
    typeErrorMessage := fun expr => "Cannot read properties of null: " ++ expr }

/-- A failing outcome of the session-creation call: `fetch` rejects, the body does not parse,
or the parsed body has no property `session_id`. -/
def SessionCallFails : FetchOutcome → Prop
  | .rejected _ => True
  | .resolved r =>
    match r.body with
    | .malformed _ => True
    | .json data => data.field "session_id" = none

/-- The invariant of a notification whose container has identity `c` and whose timer is due at
`due`: before that time the container is attached, has never been detached, and its timer is
pending; from that time on the container is detached and has been detached once. -/
def Tracks (c due : Nat) (p : Page) : Prop :=
  c < p.nextId ∧
    (p.now < due →
      attached p c = true ∧ removals p c = 0 ∧ (⟨due, c⟩ : Timer) ∈ p.timers ∧
        ∀ t ∈ p.timers, t.target = c → due ≤ t.due) ∧
    (due ≤ p.now → attached p c = false ∧ removals p c = 1)

/-! ### Properties of `trim` and `validateForm` -/

theorem trimChars_eq_nil_iff (cs : List Char) :
    trimChars cs = [] ↔ ∀ c ∈ cs, isWhiteSpace c = true := by
  unfold trimChars
  rw [List.reverse_eq_nil_iff, List.dropWhile_eq_nil_iff]
  constructor
  · intro hall
    by_contra hne
    push_neg at hne
    have hd : cs.dropWhile isWhiteSpace ≠ [] := by
      intro hnil
      rw [List.dropWhile_eq_nil_iff] at hnil
      obtain ⟨c, hc, hw⟩ := hne
      exact hw (hnil c hc)
    have hhead := List.head_dropWhile_not isWhiteSpace cs hd
    have hmem : (cs.dropWhile isWhiteSpace).head hd ∈ (cs.dropWhile isWhiteSpace).reverse :=
      List.mem_reverse.mpr (List.head_mem hd)
    have := hall _ hmem
    simp [this] at hhead
  · intro hall c hc
    have hc' : c ∈ cs.dropWhile isWhiteSpace := List.mem_reverse.mp hc
    exact hall c ((List.dropWhile_sublist _).subset hc')

theorem trim_eq_empty_iff (s : String) :
    trim s = "" ↔ ∀ c ∈ s.data, isWhiteSpace c = true := by
  rw [← trimChars_eq_nil_iff]
  unfold trim
  constructor
  · intro hs
    have := congrArg String.data hs
    simpa using this
  · intro hs
    rw [hs]

theorem validateLoop_text (h : Host) (fields : List (String × String)) (errors : List String) :
    validateLoop h errors (textEntries fields)
      = .ok (errors ++ (fields.filter (fun e => decide (trim e.2 = ""))).map
          (fun e => e.1 ++ " is required")) := by
  induction fields generalizing errors with
  | nil => simp [textEntries, validateLoop]
  | cons e rest ih =>
    have hcons : textEntries (e :: rest) = (e.1, FormValue.text e.2) :: textEntries rest := rfl
    rw [hcons, validateLoop]
    by_cases ht : trim e.2 = ""
    · simp [validateStep, trimmedIsEmpty, ht, ih, List.filter_cons]
    · simp [validateStep, trimmedIsEmpty, ht, ih, List.filter_cons]

/-- C1: for every ordered sequence of (field name, string value) entries, `validateForm` returns
exactly the messages `<name> is required` of the entries whose value is empty after trimming
white space, one for each such entry and in the order the entries are iterated; an entry whose
trimmed value is not empty contributes no message. -/
theorem validateForm_messages (h : Host) (fields : List (String × String)) :
    validateForm h (textEntries fields)
      = .ok ((fields.filter (fun e => decide (trim e.2 = ""))).map
          (fun e => e.1 ++ " is required")) := by
  have := validateLoop_text h fields []
  simpa [validateForm] using this

/-- C2, as stated, fails: the value `" "` is a non-empty string, yet `validateForm` reports the
field, because the value is trimmed before the test. -/
theorem validateForm_nonempty_counterexample :
    (∀ e ∈ [("name", " ")], e.2 ≠ "") ∧
      validateForm Host.sample (textEntries [("name", " ")]) = .ok ["name is required"] := by
  refine ⟨by decide, ?_⟩
  unfold validateForm
  rw [validateLoop_text]
  exact congrArg Except.ok (by decide)

/-- C2, amended: for every sequence of (field name, string value) entries in which every value
is non-empty after trimming white space, `validateForm` returns the empty sequence. -/
theorem validateForm_no_messages (h : Host) (fields : List (String × String))
    (hne : ∀ e ∈ fields, trim e.2 ≠ "") :
    validateForm h (textEntries fields) = .ok [] := by
  unfold validateForm
  rw [validateLoop_text]
  have : fields.filter (fun e => decide (trim e.2 = "")) = [] := by
    rw [List.filter_eq_nil_iff]
    intro e he
    simpa using hne e he
  rw [this]
  rfl

theorem validateForm_no_messages_witness :
    (∀ e ∈ [("name", "Ann"), ("email", " a@b.c ")], trim e.2 ≠ "") ∧
      validateForm Host.sample (textEntries [("name", "Ann"), ("email", " a@b.c ")]) = .ok [] :=
  ⟨by decide, validateForm_no_messages Host.sample _ (by decide)⟩

theorem sizeInMB_gt_iff (size : Nat) (limit : ℚ) :
    (size : ℚ) / (1024 * 1024) > limit ↔ limit * (1024 * 1024) < (size : ℚ) := by
  rw [gt_iff_lt, lt_div_iff₀ (by norm_num)]

/-- C3: for every input element and every limit `maxSize` in MB (5 when omitted),
`handleFileUpload` returns `true`, adds no notification and leaves the input as it is when no
file is selected or the size of the file in bytes is at most `maxSize * 1024 * 1024`; otherwise
it returns `false`, sets the value of the input to the empty string, and adds exactly one
notification, of severity `warning`. -/
theorem handleFileUpload_contract (h : Host) (input : FileInput) (maxSize : Option ℚ)
    (p : Page) :
    ((∀ f, input.files.head? = some f → (f.size : ℚ) ≤ maxSize.getD 5 * 1024 * 1024) →
      handleFileUpload h input maxSize p = (true, input, p)) ∧
    ((∃ f, input.files.head? = some f ∧ maxSize.getD 5 * 1024 * 1024 < (f.size : ℚ)) →
      (handleFileUpload h input maxSize p).1 = false ∧
      (handleFileUpload h input maxSize p).2.1.value = "" ∧
      (∃ c, (handleFileUpload h input maxSize p).2.2.body = p.body ++ [c] ∧
        c.children.map (fun n => n.className)
          = ["alert alert-warning alert-dismissible fade show"]) ∧
      alertClasses (handleFileUpload h input maxSize p).2.2
        = alertClasses p ++ ["alert alert-warning alert-dismissible fade show"]) := by
  constructor
  · intro hle
    unfold handleFileUpload
    cases hf : input.files.head? with
    | none => rfl
    | some f =>
      have hnot : ¬ (f.size : ℚ) / (1024 * 1024) > maxSize.getD 5 := by
        rw [sizeInMB_gt_iff]
        have := hle f hf
        linarith
      simp only [hnot, if_false]
  · rintro ⟨f, hf, hgt⟩
    have hyes : (f.size : ℚ) / (1024 * 1024) > maxSize.getD 5 := by
      rw [sizeInMB_gt_iff]
      linarith
    have heq : handleFileUpload h input maxSize p
        = (false, { input with value := "" },
            showNotification
              ("File size must be less than " ++ h.numberToString (maxSize.getD 5) ++ "MB")
              (some "warning") p) := by
      unfold handleFileUpload
      simp only [hf]
      rw [if_pos hyes]
    rw [heq]
    refine ⟨rfl, rfl, ⟨_, rfl, ?_⟩, ?_⟩
    · simp
    · simp [alertClasses, showNotification]

theorem handleFileUpload_contract_witness :
    handleFileUpload Host.sample ⟨[⟨"cv.pdf", 4 * 1024 * 1024⟩], "cv.pdf"⟩ none Page.empty
        = (true, ⟨[⟨"cv.pdf", 4 * 1024 * 1024⟩], "cv.pdf"⟩, Page.empty) ∧
      handleFileUpload Host.sample ⟨[⟨"cv.pdf", 5 * 1024 * 1024⟩], "cv.pdf"⟩ (some 5) Page.empty
        = (true, ⟨[⟨"cv.pdf", 5 * 1024 * 1024⟩], "cv.pdf"⟩, Page.empty) ∧
      handleFileUpload Host.sample ⟨[], ""⟩ (some 5) Page.empty = (true, ⟨[], ""⟩, Page.empty) ∧
      (handleFileUpload Host.sample ⟨[⟨"cv.pdf", 6 * 1024 * 1024⟩], "cv.pdf"⟩ none Page.empty).1
        = false ∧
      (handleFileUpload Host.sample ⟨[⟨"cv.pdf", 6 * 1024 * 1024⟩], "cv.pdf"⟩ none
        Page.empty).2.1.value = "" ∧
      alertClasses (handleFileUpload Host.sample ⟨[⟨"cv.pdf", 6 * 1024 * 1024⟩], "cv.pdf"⟩ none
        Page.empty).2.2 = ["alert alert-warning alert-dismissible fade show"] := by
  refine ⟨(handleFileUpload_contract Host.sample _ none Page.empty).1 ?_,
    (handleFileUpload_contract Host.sample _ (some 5) Page.empty).1 ?_,
    (handleFileUpload_contract Host.sample _ (some 5) Page.empty).1 ?_, ?_⟩
  · intro f hf
    simp at hf
    subst hf
    norm_num
  · intro f hf
    simp at hf
    subst hf
    norm_num
  · intro f hf
    simp at hf
  · have hbig := (handleFileUpload_contract Host.sample
      ⟨[⟨"cv.pdf", 6 * 1024 * 1024⟩], "cv.pdf"⟩ none Page.empty).2
      ⟨⟨"cv.pdf", 6 * 1024 * 1024⟩, rfl, by norm_num⟩
    exact ⟨hbig.1, hbig.2.1, by simpa [alertClasses, Page.empty] using hbig.2.2.2⟩

/-! ### The operations on the storage and in the monad -/

theorem getItem_setItem_self (st : Storage) (key value : String) :
    getItem (setItem st key value) key = some value := by
  induction st with
  | nil => simp [setItem, getItem]
  | cons e rest ih =>
    obtain ⟨k, v⟩ := e
    by_cases hk : k = key
    · simp [setItem, getItem, hk]
    · simp [setItem, getItem, hk, ih]

theorem getItem_setItem_of_ne (st : Storage) (key value other : String) (hne : other ≠ key) :
    getItem (setItem st key value) other = getItem st other := by
  induction st with
  | nil => simp [setItem, getItem, Ne.symm hne]
  | cons e rest ih =>
    obtain ⟨k, v⟩ := e
    by_cases hk : k = key
    · subst hk
      simp [setItem, getItem, Ne.symm hne]
    · by_cases ho : k = other
      · subst ho
        simp [setItem, getItem, hk]
      · simp [setItem, getItem, hk, ho, ih]

@[simp] theorem js_bind_apply {α β : Type} (m : JS α) (f : α → JS β) (w : World) :
    (m >>= f) w = JS.bind m f w := rfl

@[simp] theorem js_pure_apply {α : Type} (a : α) (w : World) :
    (pure a : JS α) w = (.ok a, w) := rfl

theorem field_eq_some_ne_null {data : Json} {key : String} {v : Json}
    (hfield : data.field key = some v) : data ≠ .null := by
  intro hnull
  rw [hnull] at hfield
  simp [Json.field] at hfield

theorem getProp_of_ne_null (h : Host) {data : Json} (key : String) (hne : data ≠ .null) :
    getProp h data key = pure (data.field key) := by
  cases data <;> first | rfl | exact absurd rfl hne

/-- C4: for every file and every storage in which no session identifier is stored under
`sessionId` (the key is missing, or holds the empty string), `handleUpload` makes no network
call, shows exactly one alert, and returns without throwing; the storage is as before. -/
theorem handleUpload_no_session (h : Host) (net : Net) (file : File) (st : Storage)
    (hno : getItem st "sessionId" = none ∨ getItem st "sessionId" = some "") :
    fetches (handleUpload h net file ⟨st, []⟩).2.trace = [] ∧
      alerts (handleUpload h net file ⟨st, []⟩).2.trace
        = ["No session found. Please refresh the page."] ∧
      rejection (handleUpload h net file ⟨st, []⟩) = none ∧
      (handleUpload h net file ⟨st, []⟩).2.storage = st := by
  rcases hno with hno | hno <;>
    simp [handleUpload, JS.bind, localStorageGetItem, hno, alert, emit, fetches, alerts,
      rejection]

theorem handleUpload_no_session_witness :
    (getItem [("theme", "dark")] "sessionId" = none ∨
        getItem [("theme", "dark")] "sessionId" = some "") ∧
      fetches (handleUpload Host.sample (fun _ => .rejected ⟨"TypeError", "Failed to fetch"⟩)
        ⟨"cv.pdf", 1024⟩ ⟨[("theme", "dark")], []⟩).2.trace = [] ∧
      alerts (handleUpload Host.sample (fun _ => .rejected ⟨"TypeError", "Failed to fetch"⟩)
        ⟨"cv.pdf", 1024⟩ ⟨[("theme", "dark")], []⟩).2.trace
        = ["No session found. Please refresh the page."] :=
  have hw := handleUpload_no_session Host.sample
    (fun _ => .rejected ⟨"TypeError", "Failed to fetch"⟩) ⟨"cv.pdf", 1024⟩ [("theme", "dark")]
    (Or.inl (by decide))
  ⟨Or.inl (by decide), hw.1, hw.2.1⟩

theorem initSession_storage_of_fails (h : Host) (net : Net) (w : World)
    (hfail : SessionCallFails (net startSessionRequest)) :
    (initSession h net w).2.storage = w.storage := by
  unfold SessionCallFails at hfail
  cases hnet : net startSessionRequest with
  | rejected e =>
    simp [initSession, tryCatch, JS.bind, fetch, emit, raise, hnet]
  | resolved r =>
    rw [hnet] at hfail
    cases hbody : r.body with
    | malformed e =>
      simp [initSession, tryCatch, JS.bind, fetch, emit, raise, hnet, Response.json, hbody]
    | json data =>
      simp only [hbody] at hfail
      cases data <;>
        simp [initSession, tryCatch, JS.bind, JS.pure, fetch, emit, raise, hnet, Response.json,
          hbody, getProp, hfail]

/-- C5: for every prior state of the persisted storage and every failing outcome of the
session-creation call (`fetch` rejects, the body is not parseable JSON, or the parsed body has no
property `session_id`), the storage after `initSession` is the storage before it; in particular
a `sessionId` unset before is unset after. -/
theorem initSession_failure_keeps_storage (h : Host) (net : Net) (st : Storage)
    (hfail : SessionCallFails (net startSessionRequest)) :
    (initSession h net ⟨st, []⟩).2.storage = st ∧
      (getItem st "sessionId" = none →
        getItem (initSession h net ⟨st, []⟩).2.storage "sessionId" = none) := by
  have hst := initSession_storage_of_fails h net ⟨st, []⟩ hfail
  exact ⟨hst, fun hnone => by rw [hst]; exact hnone⟩

theorem initSession_failure_keeps_storage_witness :
    SessionCallFails
        ((fun _ => FetchOutcome.rejected ⟨"TypeError", "Failed to fetch"⟩) startSessionRequest) ∧
      (initSession Host.sample (fun _ => .rejected ⟨"TypeError", "Failed to fetch"⟩)
        ⟨[("theme", "dark")], []⟩).2.storage = [("theme", "dark")] :=
  ⟨trivial, (initSession_failure_keeps_storage Host.sample
    (fun _ => .rejected ⟨"TypeError", "Failed to fetch"⟩) [("theme", "dark")] trivial).1⟩

theorem initSession_storage_of_session (h : Host) (net : Net) (w : World) (r : Response)
    (data : Json) (s : String) (hres : net startSessionRequest = .resolved r)
    (hbody : r.body = .json data) (hfield : data.field "session_id" = some (.str s))
    (hs : s ≠ "") :
    (initSession h net w).2.storage = setItem w.storage "sessionId" s := by
  have hnn := field_eq_some_ne_null hfield
  simp [initSession, tryCatch, JS.bind, JS.pure, fetch, emit, hres, Response.json, hbody,
    getProp_of_ne_null h "session_id" hnn, hfield, truthy, hs, localStorageSetItem, toStr]

/-- C6: for every prior state of the persisted storage (also one that already holds a value
under `sessionId`) and every response whose JSON body carries a non-empty string `session_id`
`s`, after `initSession` the storage maps `sessionId` to `s`, whatever it held before, and every
other key is as before. -/
theorem initSession_success_stores_session (h : Host) (net : Net) (st : Storage) (r : Response)
    (data : Json) (s : String) (hres : net startSessionRequest = .resolved r)
    (hbody : r.body = .json data) (hfield : data.field "session_id" = some (.str s))
    (hs : s ≠ "") :
    getItem (initSession h net ⟨st, []⟩).2.storage "sessionId" = some s ∧
      ∀ key, key ≠ "sessionId" →
        getItem (initSession h net ⟨st, []⟩).2.storage key = getItem st key := by
  rw [initSession_storage_of_session h net ⟨st, []⟩ r data s hres hbody hfield hs]
  exact ⟨getItem_setItem_self st _ _, fun key hkey => getItem_setItem_of_ne st _ _ key hkey⟩

theorem initSession_success_stores_session_witness :
    getItem (initSession Host.sample
        (fun _ => .resolved ⟨true, .json (.obj [("session_id", .str "s-42")])⟩)
        ⟨[("sessionId", "old"), ("theme", "dark")], []⟩).2.storage "sessionId" = some "s-42" ∧
      getItem (initSession Host.sample
        (fun _ => .resolved ⟨true, .json (.obj [("session_id", .str "s-42")])⟩)
        ⟨[("sessionId", "old"), ("theme", "dark")], []⟩).2.storage "theme" = some "dark" :=
  have hw := initSession_success_stores_session Host.sample
    (fun _ => .resolved ⟨true, .json (.obj [("session_id", .str "s-42")])⟩)
    [("sessionId", "old"), ("theme", "dark")]
    ⟨true, .json (.obj [("session_id", .str "s-42")])⟩ (.obj [("session_id", .str "s-42")])
    "s-42" rfl rfl rfl (by decide)
  ⟨hw.1, (hw.2 "theme" (by decide)).trans (by decide)⟩

theorem handleUpload_of_session (h : Host) (net : Net) (file : File) (w : World) (s : String)
    (hs : getItem w.storage "sessionId" = some s) (hne : s ≠ "") :
    handleUpload h net file w
      = tryCatch (handleUploadBody h net file s)
          (fun error => do
            emit (.consoleError "Upload failed:" error)
            alert error.message) w := by
  simp [handleUpload, JS.bind, localStorageGetItem, hs, hne]

/-- C7, as stated, fails: the body `{"detail": ""}` of a non-success response has the property
`detail`, yet the alert shows the generic text, not that property. -/
theorem handleUpload_detail_counterexample :
    alerts (handleUpload Host.sample
        (fun _ => .resolved ⟨false, .json (.obj [("detail", .str "")])⟩)
        ⟨"cv.pdf", 1024⟩ ⟨[("sessionId", "s-42")], []⟩).2.trace = ["Upload failed"] ∧
      ("Upload failed" : String) ≠ "" := by
  refine ⟨?_, by decide⟩
  rw [handleUpload_of_session _ _ _ _ "s-42" (by decide) (by decide)]
  simp [tryCatch, handleUploadBody, JS.bind, fetch, emit, Response.json, getProp, Json.field,
    lookupField, orElse, truthy, raise, newError, toStr, alert, alerts]

/-- C7, amended: for every file, every stored non-empty session identifier and every non-success
response to the upload call with a JSON body, `handleUpload` shows exactly one alert and reads
the body once, so the success path is not taken; the text of the alert is the property `detail`
of the body, converted to a string, when that property is present and truthy (for a string:
not empty), and the generic text `Upload failed` when the body is not `null` and the property
is absent or falsy. -/
theorem handleUpload_failure_alert (h : Host) (net : Net) (file : File) (st : Storage)
    (s : String) (r : Response) (data : Json)
    (hs : getItem st "sessionId" = some s) (hne : s ≠ "")
    (hres : net (uploadRequest file s) = .resolved r) (hok : r.ok = false)
    (hbody : r.body = .json data) :
    (alerts (handleUpload h net file ⟨st, []⟩).2.trace).length = 1 ∧
      bodyReads (handleUpload h net file ⟨st, []⟩).2.trace = 1 ∧
      (∀ v, data.field "detail" = some v → truthy (some v) = true →
        alerts (handleUpload h net file ⟨st, []⟩).2.trace = [toStr h v]) ∧
      (data ≠ .null → truthy (data.field "detail") = false →
        alerts (handleUpload h net file ⟨st, []⟩).2.trace = ["Upload failed"]) := by
  rw [handleUpload_of_session h net file ⟨st, []⟩ s hs hne]
  refine ⟨?_, ?_, ?_, ?_⟩
  · by_cases hnull : data = .null
    · subst hnull
      simp [tryCatch, handleUploadBody, JS.bind, fetch, emit, hres, hok, Response.json, hbody,
        getProp, raise, alert, alerts]
    · simp [tryCatch, handleUploadBody, JS.bind, fetch, emit, hres, hok, Response.json, hbody,
        getProp_of_ne_null h "detail" hnull, raise, alert, alerts]
  · by_cases hnull : data = .null
    · subst hnull
      simp [tryCatch, handleUploadBody, JS.bind, fetch, emit, hres, hok, Response.json, hbody,
        getProp, raise, alert, bodyReads]
    · simp [tryCatch, handleUploadBody, JS.bind, fetch, emit, hres, hok, Response.json, hbody,
        getProp_of_ne_null h "detail" hnull, raise, alert, bodyReads]
  · intro v hv htruthy
    have hnull := field_eq_some_ne_null hv
    simp [tryCatch, handleUploadBody, JS.bind, fetch, emit, hres, hok, Response.json, hbody,
      getProp_of_ne_null h "detail" hnull, raise, alert, alerts, hv, orElse, htruthy, newError]
  · intro hnull hfalsy
    have hor : orElse (data.field "detail") (.str "Upload failed") = .str "Upload failed" := by
      cases hd : data.field "detail" with
      | none => rfl
      | some v =>
        rw [hd] at hfalsy
        simp [orElse, hfalsy]
    simp [tryCatch, handleUploadBody, JS.bind, fetch, emit, hres, hok, Response.json, hbody,
      getProp_of_ne_null h "detail" hnull, raise, alert, alerts, hor, newError, toStr]

theorem handleUpload_failure_alert_witness :
    alerts (handleUpload Host.sample
        (fun _ => .resolved ⟨false, .json (.obj [("detail", .str "Only PDF files")])⟩)
        ⟨"cv.txt", 1024⟩ ⟨[("sessionId", "s-42")], []⟩).2.trace = ["Only PDF files"] ∧
      bodyReads (handleUpload Host.sample
        (fun _ => .resolved ⟨false, .json (.obj [("detail", .str "Only PDF files")])⟩)
        ⟨"cv.txt", 1024⟩ ⟨[("sessionId", "s-42")], []⟩).2.trace = 1 :=
  have hw := handleUpload_failure_alert Host.sample
    (fun _ => .resolved ⟨false, .json (.obj [("detail", .str "Only PDF files")])⟩)
    ⟨"cv.txt", 1024⟩ [("sessionId", "s-42")] "s-42"
    ⟨false, .json (.obj [("detail", .str "Only PDF files")])⟩
    (.obj [("detail", .str "Only PDF files")]) (by decide) (by decide) rfl rfl rfl
  ⟨hw.2.2.1 (.str "Only PDF files") rfl (by decide), hw.2.1⟩

/-- C8: for every file and every storage holding a non-empty session identifier `s` under
`sessionId`, one invocation of `handleUpload` makes exactly one network call, whatever its
outcome: a `POST` whose multipart body has the file under the name `file` and whose header
`X-Session-ID` is `s`; no second call is made and the storage is not modified. -/
theorem handleUpload_single_call (h : Host) (net : Net) (file : File) (st : Storage)
    (s : String) (hs : getItem st "sessionId" = some s) (hne : s ≠ "") :
    fetches (handleUpload h net file ⟨st, []⟩).2.trace
        = [{ url := "http://localhost:8000/api/upload-resume", method := "POST",
             headers := [("X-Session-ID", s)], body := some [("file", .file file)] }] ∧
      (handleUpload h net file ⟨st, []⟩).2.storage = st := by
  rw [handleUpload_of_session h net file ⟨st, []⟩ s hs hne]
  change fetches _ = [uploadRequest file s] ∧ _
  cases hnet : net (uploadRequest file s) with
  | rejected e =>
    simp [tryCatch, handleUploadBody, JS.bind, fetch, emit, hnet, raise, alert, fetches]
  | resolved r =>
    cases hbody : r.body with
    | malformed e =>
      cases hok : r.ok <;>
        simp [tryCatch, handleUploadBody, JS.bind, fetch, emit, hnet, hok, Response.json, hbody,
          raise, alert, fetches]
    | json data =>
      cases hok : r.ok
      · by_cases hnull : data = .null
        · subst hnull
          simp [tryCatch, handleUploadBody, JS.bind, fetch, emit, hnet, hok, Response.json,
            hbody, getProp, raise, alert, fetches]
        · simp [tryCatch, handleUploadBody, JS.bind, fetch, emit, hnet, hok, Response.json,
            hbody, getProp_of_ne_null h "detail" hnull, raise, alert, fetches]
      · simp [tryCatch, handleUploadBody, JS.bind, fetch, emit, hnet, hok, Response.json,
          hbody, raise, alert, fetches]

theorem handleUpload_single_call_witness :
    fetches (handleUpload Host.sample (fun _ => .rejected ⟨"TypeError", "Failed to fetch"⟩)
        ⟨"cv.pdf", 1024⟩ ⟨[("sessionId", "s-42")], []⟩).2.trace
      = [{ url := "http://localhost:8000/api/upload-resume", method := "POST",
           headers := [("X-Session-ID", "s-42")],
           body := some [("file", .file ⟨"cv.pdf", 1024⟩)] }] :=
  (handleUpload_single_call Host.sample (fun _ => .rejected ⟨"TypeError", "Failed to fetch"⟩)
    ⟨"cv.pdf", 1024⟩ [("sessionId", "s-42")] "s-42" (by decide) (by decide)).1

theorem initSession_fulfils (h : Host) (net : Net) (w : World) :
    rejection (initSession h net w) = none := by
  cases hnet : net startSessionRequest with
  | rejected e =>
    simp [initSession, tryCatch, JS.bind, fetch, emit, raise, hnet, rejection]
  | resolved r =>
    cases hbody : r.body with
    | malformed e =>
      simp [initSession, tryCatch, JS.bind, fetch, emit, raise, hnet, Response.json, hbody,
        rejection]
    | json data =>
      by_cases hnull : data = .null
      · subst hnull
        simp [initSession, tryCatch, JS.bind, fetch, emit, raise, hnet, Response.json, hbody,
          getProp, rejection]
      · cases hfield : data.field "session_id" with
        | none =>
          simp [initSession, tryCatch, JS.bind, fetch, emit, hnet, Response.json, hbody,
            getProp_of_ne_null h "session_id" hnull, hfield, rejection]
        | some v =>
          by_cases hv : truthy (some v) = true
          · simp [initSession, tryCatch, JS.bind, fetch, emit, hnet, Response.json, hbody,
              getProp_of_ne_null h "session_id" hnull, hfield, hv, localStorageSetItem,
              rejection]
          · simp [initSession, tryCatch, JS.bind, fetch, emit, hnet, Response.json, hbody,
              getProp_of_ne_null h "session_id" hnull, hfield, hv, rejection]

theorem handleUpload_fulfils (h : Host) (net : Net) (file : File) (w : World) :
    rejection (handleUpload h net file w) = none := by
  cases hs : getItem w.storage "sessionId" with
  | none => simp [handleUpload, JS.bind, localStorageGetItem, hs, alert, emit, rejection]
  | some s =>
    by_cases hne : s = ""
    · simp [handleUpload, JS.bind, localStorageGetItem, hs, hne, alert, emit, rejection]
    · rw [handleUpload_of_session h net file w s hs hne]
      cases hnet : net (uploadRequest file s) with
      | rejected e =>
        simp [tryCatch, handleUploadBody, JS.bind, fetch, emit, hnet, raise, alert, rejection]
      | resolved r =>
        cases hbody : r.body with
        | malformed e =>
          cases hok : r.ok <;>
            simp [tryCatch, handleUploadBody, JS.bind, fetch, emit, hnet, hok, Response.json,
              hbody, raise, alert, rejection]
        | json data =>
          cases hok : r.ok
          · by_cases hnull : data = .null
            · subst hnull
              simp [tryCatch, handleUploadBody, JS.bind, fetch, emit, hnet, hok, Response.json,
                hbody, getProp, raise, alert, rejection]
            · simp [tryCatch, handleUploadBody, JS.bind, fetch, emit, hnet, hok, Response.json,
                hbody, getProp_of_ne_null h "detail" hnull, raise, alert, rejection]
          · simp [tryCatch, handleUploadBody, JS.bind, fetch, emit, hnet, hok, Response.json,
              hbody, raise, alert, rejection]

/-- C9, as stated, fails for the legacy `uploadResume`: when `fetch` rejects, the operation
rejects with that error. -/
theorem uploadResume_rejects_counterexample :
    rejection (uploadResume Host.sample (fun _ => .rejected ⟨"TypeError", "Failed to fetch"⟩)
        (some ⟨[⟨"cv.pdf", 1024⟩], "cv.pdf"⟩) ⟨[], []⟩)
      = some ⟨"TypeError", "Failed to fetch"⟩ := by
  simp [uploadResume, JS.bind, fetch, emit, raise, rejection]

/-- C9, amended: `initSession` and `handleUpload` handle every outcome of their network call
(`fetch` rejects, non-success status, a body that is not valid JSON) inside the operation and
complete normally. The legacy `uploadResume` has no error handling: when `fetch` rejects or the
body is not valid JSON it rejects with that error, and it completes normally when the call
resolves, whatever the status, with a body that parses to a JSON value other than `null`. -/
theorem network_errors_handled (h : Host) (net : Net) (st : Storage) (file : File)
    (input : FileInput) :
    rejection (initSession h net ⟨st, []⟩) = none ∧
      rejection (handleUpload h net file ⟨st, []⟩) = none ∧
      (∀ e, net (legacyUploadRequest input.files.head?) = .rejected e →
        rejection (uploadResume h net (some input) ⟨st, []⟩) = some e) ∧
      (∀ r e, net (legacyUploadRequest input.files.head?) = .resolved r →
        r.body = .malformed e →
        rejection (uploadResume h net (some input) ⟨st, []⟩) = some e) ∧
      (∀ r data, net (legacyUploadRequest input.files.head?) = .resolved r →
        r.body = .json data → data ≠ .null →
        rejection (uploadResume h net (some input) ⟨st, []⟩) = none) := by
  refine ⟨initSession_fulfils h net _, handleUpload_fulfils h net file _, ?_, ?_, ?_⟩
  · intro e hnet
    simp [uploadResume, JS.bind, fetch, emit, raise, hnet, rejection]
  · intro r e hnet hbody
    simp [uploadResume, JS.bind, fetch, emit, raise, hnet, Response.json, hbody, rejection]
  · intro r data hnet hbody hnull
    simp [uploadResume, JS.bind, fetch, emit, hnet, Response.json, hbody,
      getProp_of_ne_null h "questions" hnull, alert, rejection]

theorem network_errors_handled_witness :
    rejection (initSession Host.sample (fun _ => .rejected ⟨"TypeError", "Failed to fetch"⟩)
        ⟨[], []⟩) = none ∧
      rejection (handleUpload Host.sample (fun _ => .rejected ⟨"TypeError", "Failed to fetch"⟩)
        ⟨"cv.pdf", 1024⟩ ⟨[], []⟩) = none ∧
      rejection (uploadResume Host.sample
        (fun _ => .resolved ⟨false, .json (.obj [("detail", .str "Not Found")])⟩)
        (some ⟨[⟨"cv.pdf", 1024⟩], "cv.pdf"⟩) ⟨[], []⟩) = none :=
  have hw := network_errors_handled Host.sample
    (fun _ => .rejected ⟨"TypeError", "Failed to fetch"⟩) [] ⟨"cv.pdf", 1024⟩
    ⟨[⟨"cv.pdf", 1024⟩], "cv.pdf"⟩
  have hl := (network_errors_handled Host.sample
    (fun _ => .resolved ⟨false, .json (.obj [("detail", .str "Not Found")])⟩) []
    ⟨"cv.pdf", 1024⟩ ⟨[⟨"cv.pdf", 1024⟩], "cv.pdf"⟩).2.2.2.2
    ⟨false, .json (.obj [("detail", .str "Not Found")])⟩ (.obj [("detail", .str "Not Found")])
    rfl rfl (by simp)
  ⟨hw.1, hw.2.1, hl⟩

/-! ### The lifetime of a notification -/

theorem attached_iff (p : Page) (c : Nat) : attached p c = true ↔ ∃ e ∈ p.body, e.id = c := by
  simp [attached]

theorem attached_eq_false_iff (p : Page) (c : Nat) :
    attached p c = false ↔ ∀ e ∈ p.body, e.id ≠ c := by
  simp [attached]

theorem fire_frame (p : Page) (t : Timer) :
    (fire p t).now = p.now ∧ (fire p t).nextId = p.nextId ∧ (fire p t).timers = p.timers := by
  unfold fire
  split <;> simp

theorem fire_of_ne (p : Page) (t : Timer) (c : Nat) (hne : t.target ≠ c) :
    attached (fire p t) c = attached p c ∧ removals (fire p t) c = removals p c := by
  unfold fire
  split
  · constructor
    · rw [Bool.eq_iff_iff, attached_iff, attached_iff]
      constructor
      · rintro ⟨e, he, hid⟩
        exact ⟨e, (List.mem_filter.mp he).1, hid⟩
      · rintro ⟨e, he, hid⟩
        refine ⟨e, List.mem_filter.mpr ⟨he, ?_⟩, hid⟩
        simpa [hid] using Ne.symm hne
    · simp [removals, List.count_append, List.count_singleton, hne]
  · exact ⟨rfl, rfl⟩

theorem fire_of_detached (p : Page) (t : Timer) (c : Nat) (hoff : attached p c = false) :
    attached (fire p t) c = false ∧ removals (fire p t) c = removals p c := by
  by_cases hc : t.target = c
  · have : fire p t = p := by
      unfold fire
      rw [hc, hoff]
      simp
    rw [this]
    exact ⟨hoff, rfl⟩
  · have := fire_of_ne p t c hc
    exact ⟨this.1.trans hoff, this.2⟩

theorem fire_of_attached (p : Page) (t : Timer) (c : Nat) (hon : attached p c = true)
    (hc : t.target = c) :
    attached (fire p t) c = false ∧ removals (fire p t) c = removals p c + 1 := by
  unfold fire
  rw [hc, if_pos hon]
  constructor
  · rw [attached_eq_false_iff]
    intro e he
    simpa using (List.mem_filter.mp he).2
  · simp [removals, List.count_append]

theorem foldl_fire_frame (ts : List Timer) (p : Page) :
    (ts.foldl fire p).now = p.now ∧ (ts.foldl fire p).nextId = p.nextId ∧
      (ts.foldl fire p).timers = p.timers := by
  induction ts generalizing p with
  | nil => exact ⟨rfl, rfl, rfl⟩
  | cons t rest ih =>
    have h1 := fire_frame p t
    have h2 := ih (fire p t)
    simp only [List.foldl_cons]
    exact ⟨h2.1.trans h1.1, h2.2.1.trans h1.2.1, h2.2.2.trans h1.2.2⟩

theorem foldl_fire_of_ne (ts : List Timer) (p : Page) (c : Nat)
    (hne : ∀ t ∈ ts, t.target ≠ c) :
    attached (ts.foldl fire p) c = attached p c ∧
      removals (ts.foldl fire p) c = removals p c := by
  induction ts generalizing p with
  | nil => exact ⟨rfl, rfl⟩
  | cons t rest ih =>
    have h1 := fire_of_ne p t c (hne t (List.mem_cons_self _ _))
    have h2 := ih (fire p t) (fun u hu => hne u (List.mem_cons_of_mem _ hu))
    simp only [List.foldl_cons]
    exact ⟨h2.1.trans h1.1, h2.2.trans h1.2⟩

theorem foldl_fire_of_detached (ts : List Timer) (p : Page) (c : Nat)
    (hoff : attached p c = false) :
    attached (ts.foldl fire p) c = false ∧ removals (ts.foldl fire p) c = removals p c := by
  induction ts generalizing p with
  | nil => exact ⟨hoff, rfl⟩
  | cons t rest ih =>
    have h1 := fire_of_detached p t c hoff
    have h2 := ih (fire p t) h1.1
    simp only [List.foldl_cons]
    exact ⟨h2.1, h2.2.trans h1.2⟩

theorem foldl_fire_of_attached (ts : List Timer) (p : Page) (c : Nat)
    (hon : attached p c = true) (hmem : ∃ t ∈ ts, t.target = c) :
    attached (ts.foldl fire p) c = false ∧
      removals (ts.foldl fire p) c = removals p c + 1 := by
  induction ts generalizing p with
  | nil =>
    obtain ⟨t, ht, _⟩ := hmem
    simp at ht
  | cons t rest ih =>
    simp only [List.foldl_cons]
    by_cases hc : t.target = c
    · have h1 := fire_of_attached p t c hon hc
      have h2 := foldl_fire_of_detached rest (fire p t) c h1.1
      exact ⟨h2.1, h2.2.trans h1.2⟩
    · have h1 := fire_of_ne p t c hc
      obtain ⟨u, hu, huc⟩ := hmem
      have hu' : u ∈ rest := by
        rcases List.mem_cons.mp hu with rfl | hu'
        · exact absurd huc hc
        · exact hu'
      have h2 := ih (fire p t) (h1.1.trans hon) ⟨u, hu', huc⟩
      exact ⟨h2.1, h2.2.trans (by rw [h1.2])⟩

theorem tick_frame (p : Page) :
    (tick p).now = p.now + 1 ∧ (tick p).nextId = p.nextId ∧
      (tick p).timers = p.timers.filter (fun t => !decide (t.due ≤ p.now + 1)) := by
  unfold tick
  have := foldl_fire_frame (p.timers.filter (fun t => decide (t.due ≤ p.now + 1)))
    { p with now := p.now + 1, timers := p.timers.filter (fun t => !decide (t.due ≤ p.now + 1)) }
  exact this

theorem tick_tracks (c due : Nat) (p : Page) (htr : Tracks c due p) : Tracks c due (tick p) := by
  obtain ⟨hid, hbefore, hafter⟩ := htr
  have hfr := tick_frame p
  refine ⟨by rw [hfr.2.1]; exact hid, ?_, ?_⟩
  · intro hnow
    rw [hfr.1] at hnow
    obtain ⟨hon, hrem, hmem, hdue⟩ := hbefore (by omega)
    have hne : ∀ t ∈ p.timers.filter (fun t => decide (t.due ≤ p.now + 1)), t.target ≠ c := by
      intro t ht htc
      have hmem' := List.mem_filter.mp ht
      have h1 := hdue t hmem'.1 htc
      have h2 : t.due ≤ p.now + 1 := by simpa using hmem'.2
      omega
    have hfold := foldl_fire_of_ne _
      { p with now := p.now + 1, timers := p.timers.filter (fun t => !decide (t.due ≤ p.now + 1)) }
      c hne
    refine ⟨hfold.1.trans hon, hfold.2.trans hrem, ?_, ?_⟩
    · rw [hfr.2.2]
      refine List.mem_filter.mpr ⟨hmem, ?_⟩
      simp only [Bool.not_eq_true', decide_eq_false_iff_not, not_le]
      exact hnow
    · intro t ht htc
      rw [hfr.2.2] at ht
      exact hdue t (List.mem_filter.mp ht).1 htc
  · intro hnow
    rw [hfr.1] at hnow
    by_cases hlt : p.now < due
    · obtain ⟨hon, hrem, hmem, _⟩ := hbefore hlt
      have hin : ∃ t ∈ p.timers.filter (fun t => decide (t.due ≤ p.now + 1)), t.target = c :=
        ⟨⟨due, c⟩, List.mem_filter.mpr ⟨hmem, by simpa using hnow⟩, rfl⟩
      have hfold := foldl_fire_of_attached _
        { p with now := p.now + 1,
                 timers := p.timers.filter (fun t => !decide (t.due ≤ p.now + 1)) }
        c hon hin
      have hrem' : removals
          { p with now := p.now + 1,
                   timers := p.timers.filter (fun t => !decide (t.due ≤ p.now + 1)) } c = 0 :=
        hrem
      exact ⟨hfold.1, hfold.2.trans (by rw [hrem'])⟩
    · obtain ⟨hoff, hrem⟩ := hafter (by omega)
      have hfold := foldl_fire_of_detached
        (p.timers.filter (fun t => decide (t.due ≤ p.now + 1)))
        { p with now := p.now + 1,
                 timers := p.timers.filter (fun t => !decide (t.due ≤ p.now + 1)) }
        c hoff
      exact ⟨hfold.1, hfold.2.trans hrem⟩

theorem advance_now (ms : Nat) (p : Page) : (advance ms p).now = p.now + ms := by
  induction ms generalizing p with
  | zero => rfl
  | succ n ih =>
    rw [advance, ih, (tick_frame p).1]
    omega

theorem advance_tracks (c due ms : Nat) (p : Page) (htr : Tracks c due p) :
    Tracks c due (advance ms p) := by
  induction ms generalizing p with
  | zero => exact htr
  | succ n ih => exact ih (tick p) (tick_tracks c due p htr)

theorem showNotification_tracks (c due : Nat) (message : String) (type : Option String)
    (p : Page) (htr : Tracks c due p) : Tracks c due (showNotification message type p) := by
  obtain ⟨hid, hbefore, hafter⟩ := htr
  have hatt : attached (showNotification message type p) c = attached p c := by
    have hne : ¬ p.nextId + 1 = c := by omega
    simp [attached, showNotification, hne]
  refine ⟨by simp only [showNotification]; omega, ?_, ?_⟩
  · intro hnow
    obtain ⟨hon, hrem, hmem, hdue⟩ := hbefore hnow
    refine ⟨hatt.trans hon, hrem, ?_, ?_⟩
    · simp only [showNotification]
      exact List.mem_append_left _ hmem
    · intro t ht htc
      simp only [showNotification] at ht
      rcases List.mem_append.mp ht with ht | ht
      · exact hdue t ht htc
      · simp only [List.mem_singleton] at ht
        subst ht
        simp only at htc
        omega
  · intro hnow
    obtain ⟨hoff, hrem⟩ := hafter hnow
    exact ⟨hatt.trans hoff, hrem⟩

theorem run_now (actions : List Action) (p : Page) :
    (run p actions).now = p.now + elapsed actions := by
  induction actions generalizing p with
  | nil => rfl
  | cons a rest ih =>
    cases a with
    | notify message type =>
      have := ih (showNotification message type p)
      simpa [run, step, elapsed] using this
    | wait ms =>
      have := ih (advance ms p)
      rw [advance_now] at this
      simp only [run, List.foldl_cons, step, elapsed] at this ⊢
      omega

theorem run_tracks (c due : Nat) (actions : List Action) (p : Page) (htr : Tracks c due p) :
    Tracks c due (run p actions) := by
  induction actions generalizing p with
  | nil => exact htr
  | cons a rest ih =>
    cases a with
    | notify message type => exact ih _ (showNotification_tracks c due message type p htr)
    | wait ms => exact ih _ (advance_tracks c due ms p htr)

theorem showNotification_starts_tracking (message : String) (type : Option String) (p : Page)
    (hwf : p.WellFormed) :
    Tracks (p.nextId + 1) (p.now + 5000) (showNotification message type p) := by
  obtain ⟨hbody, htimers, hremoved⟩ := hwf
  refine ⟨by simp only [showNotification]; omega, ?_, ?_⟩
  · intro _
    refine ⟨?_, ?_, ?_, ?_⟩
    · simp [attached, showNotification]
    · simp only [removals, showNotification]
      rw [List.count_eq_zero]
      intro hmem
      have := hremoved _ hmem
      omega
    · simp [showNotification]
    · intro t ht htc
      simp only [showNotification] at ht
      rcases List.mem_append.mp ht with ht | ht
      · have := htimers t ht
        omega
      · simp only [List.mem_singleton] at ht
        subst ht
        exact Nat.le_refl _
  · intro hnow
    simp only [showNotification] at hnow
    omega

theorem showNotification_wellFormed (message : String) (type : Option String) (p : Page)
    (hwf : p.WellFormed) : (showNotification message type p).WellFormed := by
  obtain ⟨hbody, htimers, hremoved⟩ := hwf
  refine ⟨?_, ?_, ?_⟩
  · intro e he
    simp only [showNotification] at he ⊢
    rcases List.mem_append.mp he with he | he
    · have := hbody e he
      omega
    · simp only [List.mem_singleton] at he
      subst he
      simp
  · intro t ht
    simp only [showNotification] at ht ⊢
    rcases List.mem_append.mp ht with ht | ht
    · have := htimers t ht
      omega
    · simp only [List.mem_singleton] at ht
      subst ht
      simp
  · intro c hc
    simp only [showNotification] at hc ⊢
    have := hremoved c hc
    omega

theorem foldl_fire_wellFormed (ts : List Timer) (p : Page) (hwf : p.WellFormed)
    (hts : ∀ t ∈ ts, t.target < p.nextId) : (ts.foldl fire p).WellFormed := by
  induction ts generalizing p with
  | nil => exact hwf
  | cons t rest ih =>
    simp only [List.foldl_cons]
    have hfr := fire_frame p t
    refine ih (fire p t) ?_ (fun u hu => by
      rw [hfr.2.1]
      exact hts u (List.mem_cons_of_mem _ hu))
    obtain ⟨hbody, htimers, hremoved⟩ := hwf
    have ht := hts t (List.mem_cons_self _ _)
    unfold fire
    split
    · refine ⟨fun e he => hbody e (List.mem_filter.mp he).1, htimers, ?_⟩
      intro c hc
      rcases List.mem_append.mp hc with hc | hc
      · exact hremoved c hc
      · simp only [List.mem_singleton] at hc
        subst hc
        exact ht
    · exact ⟨hbody, htimers, hremoved⟩

theorem tick_wellFormed (p : Page) (hwf : p.WellFormed) : (tick p).WellFormed := by
  obtain ⟨hbody, htimers, hremoved⟩ := hwf
  unfold tick
  refine foldl_fire_wellFormed _ _
    ⟨hbody, fun t ht => htimers t (List.mem_filter.mp ht).1, hremoved⟩
    (fun t ht => htimers t (List.mem_filter.mp ht).1)

theorem advance_wellFormed (ms : Nat) (p : Page) (hwf : p.WellFormed) :
    (advance ms p).WellFormed := by
  induction ms generalizing p with
  | zero => exact hwf
  | succ n ih => exact ih (tick p) (tick_wellFormed p hwf)

theorem run_wellFormed (actions : List Action) (p : Page) (hwf : p.WellFormed) :
    (run p actions).WellFormed := by
  induction actions generalizing p with
  | nil => exact hwf
  | cons a rest ih =>
    cases a with
    | notify message type => exact ih _ (showNotification_wellFormed message type p hwf)
    | wait ms => exact ih _ (advance_wellFormed ms p hwf)

/-- C10: on a page with a timer queue, where the identities in use lie below the next fresh
one, for every message, severity (`info` when omitted) and time `T` of the call,
`showNotification` appends to the body a fresh container holding one
element of class `alert alert-<severity> alert-dismissible fade show` and schedules one timer,
due at `T + 5000`, the only timer aimed at that container; whatever else happens afterwards
(other notifications, time passing), the container is a child of the body and has never been
detached at every time up to `T + 4999`, and from `T + 5001` on it is absent and has been
detached exactly once. -/
theorem showNotification_lifetime (message : String) (type : Option String) (p : Page)
    (hwf : p.WellFormed) (actions : List Action) :
    (∃ container alertBox,
        (showNotification message type p).body = p.body ++ [container] ∧
        container.id = p.nextId + 1 ∧ container.children = [alertBox] ∧
        alertBox.className = "alert alert-" ++ type.getD "info" ++ " alert-dismissible fade show") ∧
      (∀ e ∈ p.body, e.id ≠ p.nextId + 1) ∧
      (showNotification message type p).timers = p.timers ++ [⟨p.now + 5000, p.nextId + 1⟩] ∧
      (∀ t ∈ p.timers, t.target ≠ p.nextId + 1) ∧
      (run (showNotification message type p) actions).now = p.now + elapsed actions ∧
      (elapsed actions ≤ 4999 →
        attached (run (showNotification message type p) actions) (p.nextId + 1) = true ∧
        removals (run (showNotification message type p) actions) (p.nextId + 1) = 0) ∧
      (5001 ≤ elapsed actions →
        attached (run (showNotification message type p) actions) (p.nextId + 1) = false ∧
        removals (run (showNotification message type p) actions) (p.nextId + 1) = 1) := by
  have htr := run_tracks _ _ actions _ (showNotification_starts_tracking message type p hwf)
  have hnow : (run (showNotification message type p) actions).now = p.now + elapsed actions :=
    run_now actions (showNotification message type p)
  obtain ⟨_, hbefore, hafter⟩ := htr
  refine ⟨⟨_, _, rfl, rfl, rfl, rfl⟩, ?_, rfl, ?_, hnow, ?_, ?_⟩
  · intro e he hid
    have := hwf.1 e he
    omega
  · intro t ht hid
    have := hwf.2.1 t ht
    omega
  · intro hle
    have := hbefore (by rw [hnow]; omega)
    exact ⟨this.1, this.2.1⟩
  · intro hge
    exact hafter (by rw [hnow]; omega)

theorem showNotification_lifetime_witness :
    Page.empty.WellFormed ∧
      attached (run (showNotification "Saved" none Page.empty)
        [.wait 2000, .notify "File too large" (some "warning"), .wait 2999]) 1 = true ∧
      attached (run (showNotification "Saved" none Page.empty)
        [.wait 2000, .notify "File too large" (some "warning"), .wait 3001]) 1 = false ∧
      removals (run (showNotification "Saved" none Page.empty)
        [.wait 2000, .notify "File too large" (some "warning"), .wait 3001]) 1 = 1 :=
  have hwf : Page.empty.WellFormed := by simp [Page.WellFormed, Page.empty]
  have h1 := showNotification_lifetime "Saved" none Page.empty hwf
    [.wait 2000, .notify "File too large" (some "warning"), .wait 2999]
  have h2 := showNotification_lifetime "Saved" none Page.empty hwf
    [.wait 2000, .notify "File too large" (some "warning"), .wait 3001]
  ⟨hwf, (h1.2.2.2.2.2.1 (by decide)).1, (h2.2.2.2.2.2.2 (by decide)).1,
    (h2.2.2.2.2.2.2 (by decide)).2⟩

end InterviewPrep
